import Mathlib

/-!
Verification of the Texas Hold'em poker server (`src/server/src/index.ts`,
`src/server/src/lib/evaluator.ts`, and the server variant in
`src/unnamed/part_002`) against its natural-language specification.

The TypeScript sources are shallowly embedded: JS numbers holding chip
amounts are modelled as `Int` (all reachable values are small integers, for
which JS float arithmetic is exact), card rank values as `Nat`,
insertion-ordered `Map`s as association lists built in insertion order, and
the stable JS `Array.sort` as a stable structural insertion sort (all stable
sorts of a list under the same total preorder produce the same output).
Asynchronous `setTimeout` continuations are modelled as separate step
functions applied to the state at the time the callback runs.
-/

/-! ### Cards (src/server/src/types/poker.ts, src/unnamed/part_003) -/

inductive Suit
  | hearts
  | diamonds
  | clubs
  | spades
deriving DecidableEq, BEq

inductive Rank
  | r2
  | r3
  | r4
  | r5
  | r6
  | r7
  | r8
  | r9
  | r10
  | rJ
  | rQ
  | rK
  | rA
deriving DecidableEq, BEq

structure Card where
  suit : Suit
  rank : Rank
deriving DecidableEq, BEq

/-- evaluator.ts `getRankValue`: numeric value of a rank, 2..14 with Ace = 14. -/
def getRankValue : Rank → Nat
  | .r2 => 2
  | .r3 => 3
  | .r4 => 4
  | .r5 => 5
  | .r6 => 6
  | .r7 => 7
  | .r8 => 8
  | .r9 => 9
  | .r10 => 10
  | .rJ => 11
  | .rQ => 12
  | .rK => 13
  | .rA => 14

/-- Stable insertion step: place `a` before the first element whose key is
not larger. Used to model the stable JS `Array.sort` with a descending
numeric comparator. -/
def insertDescBy (key : α → Nat) (a : α) : List α → List α
  | [] => [a]
  | b :: bs => if key b ≤ key a then a :: b :: bs else b :: insertDescBy key a bs

/-- Stable descending sort by a numeric key; the unique stable-sort output,
hence equal to JS `sort((a, b) => key(b) - key(a))`. -/
def sortDescBy (key : α → Nat) (l : List α) : List α :=
  l.foldr (insertDescBy key) []

/-- evaluator.ts `[...cards].sort((a, b) => getRankValue(b.rank) - getRankValue(a.rank))`. -/
def sortByRankDesc (cards : List Card) : List Card :=
  sortDescBy (fun c => getRankValue c.rank) cards

/-! ### Hand evaluator (src/server/src/lib/evaluator.ts) -/

/-- evaluator.ts `HandRank` enum values. -/
def HandRank.ROYAL_FLUSH : Nat := 10
def HandRank.STRAIGHT_FLUSH : Nat := 9
def HandRank.FOUR_OF_A_KIND : Nat := 8
def HandRank.FULL_HOUSE : Nat := 7
def HandRank.FLUSH : Nat := 6
def HandRank.STRAIGHT : Nat := 5
def HandRank.THREE_OF_A_KIND : Nat := 4
def HandRank.TWO_PAIR : Nat := 3
def HandRank.ONE_PAIR : Nat := 2
def HandRank.HIGH_CARD : Nat := 1

/-- evaluator.ts `HandResult` (the presentational `description` string is not
modelled; `cards` is documented in the source as "The 5 cards that make up
the hand"). -/
structure HandResult where
  rank : Nat
  name : String
  cards : List Card
deriving DecidableEq

/-- evaluator.ts `getRankCounts`: a JS `Map` iterates in key-insertion order,
modelled as an association list extended at the tail. -/
def getRankCounts (cards : List Card) : List (Rank × Nat) :=
  cards.foldl
    (fun acc c =>
      if acc.any (fun p => p.1 == c.rank) then
        acc.map (fun p => if p.1 == c.rank then (p.1, p.2 + 1) else p)
      else acc ++ [(c.rank, 1)])
    []

/-- evaluator.ts `countsByFreq` map built inside `evaluateHand` (insertion
order again preserved). -/
def countsByFreq (rc : List (Rank × Nat)) : List (Nat × List Rank) :=
  rc.foldl
    (fun acc p =>
      if acc.any (fun g => g.1 == p.2) then
        acc.map (fun g => if g.1 == p.2 then (g.1, g.2 ++ [p.1]) else g)
      else acc ++ [(p.2, [p.1])])
    []

/-- `countsByFreq.get(n)` on the insertion-ordered map. -/
def freqGet (cbf : List (Nat × List Rank)) (n : Nat) : Option (List Rank) :=
  (cbf.find? (fun g => g.1 == n)).map (fun g => g.2)

/-- evaluator.ts `suitCounts` map built inside `checkFlush`. -/
def suitGroups (cards : List Card) : List (Suit × List Card) :=
  cards.foldl
    (fun acc c =>
      if acc.any (fun g => g.1 == c.suit) then
        acc.map (fun g => if g.1 == c.suit then (g.1, g.2 ++ [c]) else g)
      else acc ++ [(c.suit, [c])])
    []

/-- evaluator.ts `checkFlush`: first suit (in insertion order) holding at
least 5 cards, its cards sorted by rank descending, top 5. -/
def checkFlush (cards : List Card) : Option (List Card) :=
  ((suitGroups cards).find? (fun g => 5 ≤ g.2.length)).map
    (fun g => (sortByRankDesc g.2).take 5)

/-- evaluator.ts `checkStraight`. `values` is the set of distinct rank values
sorted descending (so strictly descending; the JS `values[i] - values[i+4]`
subtraction is therefore on a nonnegative difference and agrees with `Nat`
subtraction), with a trailing `1` appended when an Ace is present. The
returned cards are found back in `cards` by value; a card of value 1 never
exists, which is why the wheel comes back with only four cards. -/
def checkStraight (cards : List Card) : Option (List Card) :=
  let distinct := (cards.map (fun c => getRankValue c.rank)).dedup
  let values0 := sortDescBy id distinct
  let values := if values0.contains 14 then values0 ++ [1] else values0
  match (List.range (values.length - 4)).find?
      (fun i => values.getD i 0 - values.getD (i + 4) 0 == 4) with
  | some i =>
    let targetValues := (List.range 5).map (fun j => values.getD i 0 - j)
    some (targetValues.filterMap
      (fun value => cards.find? (fun c => getRankValue c.rank == value)))
  | none => none

/-- Rank value of the first card of a straight-flush candidate
(`straightFlush[0].rank` in the source; the list is never empty when
`checkStraight` succeeds on a nonempty input). -/
def headRankValue (cards : List Card) : Nat :=
  match cards with
  | c :: _ => getRankValue c.rank
  | [] => 0

/-- The part of evaluator.ts `evaluateHand` after the straight-flush check
(four of a kind down to high card), in source order. The non-null assertions
(`kicker!`) in the source can only see `undefined` for inputs of fewer than
5 cards; those branches are modelled by dropping the missing card. -/
def evaluateGrouped (sortedCards : List Card) (flush straight : Option (List Card)) :
    HandResult :=
  let cbf := countsByFreq (getRankCounts sortedCards)
  match freqGet cbf 4 with
  | some (quadsRank :: _) =>
    let kicker := sortedCards.find? (fun c => !(c.rank == quadsRank))
    { rank := HandRank.FOUR_OF_A_KIND, name := "Four of a Kind",
      cards := sortedCards.filter (fun c => c.rank == quadsRank) ++ kicker.toList }
  | _ =>
    match freqGet cbf 3, freqGet cbf 2 with
    | some (tripsRank :: _), some (pairRank :: _) =>
      { rank := HandRank.FULL_HOUSE, name := "Full House",
        cards := sortedCards.filter (fun c => c.rank == tripsRank) ++
          (sortedCards.filter (fun c => c.rank == pairRank)).take 2 }
    | _, _ =>
      match flush with
      | some f => { rank := HandRank.FLUSH, name := "Flush", cards := f }
      | none =>
        match straight with
        | some st => { rank := HandRank.STRAIGHT, name := "Straight", cards := st }
        | none =>
          match freqGet cbf 3 with
          | some (tripsRank :: _) =>
            let kickers := (sortedCards.filter (fun c => !(c.rank == tripsRank))).take 2
            { rank := HandRank.THREE_OF_A_KIND, name := "Three of a Kind",
              cards := sortedCards.filter (fun c => c.rank == tripsRank) ++ kickers }
          | _ =>
            match freqGet cbf 2 with
            | some (p1 :: p2 :: _) =>
              let pairRanks := [p1, p2]
              let kicker := sortedCards.find? (fun c => !(pairRanks.contains c.rank))
              { rank := HandRank.TWO_PAIR, name := "Two Pair",
                cards := sortedCards.filter (fun c => c.rank == p1) ++
                  sortedCards.filter (fun c => c.rank == p2) ++ kicker.toList }
            | some (pairRank :: _) =>
              let kickers := (sortedCards.filter (fun c => !(c.rank == pairRank))).take 3
              { rank := HandRank.ONE_PAIR, name := "One Pair",
                cards := sortedCards.filter (fun c => c.rank == pairRank) ++ kickers }
            | _ =>
              { rank := HandRank.HIGH_CARD, name := "High Card",
                cards := sortedCards.take 5 }

/-- evaluator.ts `evaluateHand`. -/
def evaluateHand (cards : List Card) : HandResult :=
  let sortedCards := sortByRankDesc cards
  let flush := checkFlush sortedCards
  let straight := checkStraight sortedCards
  match flush, straight with
  | some f, some _ =>
    match checkStraight f with
    | some straightFlush =>
      if headRankValue straightFlush == 14 then
        { rank := HandRank.ROYAL_FLUSH, name := "Royal Flush", cards := straightFlush }
      else
        { rank := HandRank.STRAIGHT_FLUSH, name := "Straight Flush", cards := straightFlush }
    | none => evaluateGrouped sortedCards flush straight
  | _, _ => evaluateGrouped sortedCards flush straight

/-- evaluator.ts `findBestHand`. -/
def findBestHand (holeCards communityCards : List Card) : HandResult :=
  evaluateHand (holeCards ++ communityCards)

/-! ### The comparison order of spec section 4.4/4.5 and the exhaustive
reference evaluator (refinement side of C3) -/

/-- Lexicographic strict comparison of hand keys (tier first, then kicker
ranks position by position), per the spec's tier-then-kicker order. A shorter
key that is a proper prefix compares smaller. -/
def keyLt : List Nat → List Nat → Bool
  | [], [] => false
  | [], _ :: _ => true
  | _ :: _, [] => false
  | a :: as, b :: bs => if a < b then true else if b < a then false else keyLt as bs

/-- Comparison key of a `HandResult`: its tier followed by the rank values of
its result cards in order. -/
def handKey (h : HandResult) : List Nat :=
  h.rank :: h.cards.map (fun c => getRankValue c.rank)

/-- Modelled from the spec: the reference exhaustive 5-card evaluation of
section 4.5 (the repository has no second evaluator). Given five cards it
produces the tier and kicker sequence: tiers Royal Flush (10) down to High
Card (1), with the wheel A-2-3-4-5 counted as a 5-high straight. -/
def specEval5Key (cs : List Card) : List Nat :=
  let rs := sortDescBy id (cs.map (fun c => getRankValue c.rank))
  let isFlush :=
    match cs with
    | c :: rest => rest.all (fun d => d.suit == c.suit)
    | [] => false
  let isWheel := rs == [14, 5, 4, 3, 2]
  let isStraight :=
    rs.dedup.length == 5 && (isWheel || rs.headD 0 - rs.getLastD 0 == 4)
  let straightHigh := if isWheel then 5 else rs.headD 0
  let groups := sortDescBy (fun g => 15 * g.1 + g.2)
    (rs.dedup.map (fun v => (rs.count v, v)))
  if isStraight && isFlush then
    if straightHigh == 14 then [10] else [9, straightHigh]
  else
    match groups with
    | [(4, q), (_, k)] => [8, q, k]
    | [(3, t), (2, p)] => [7, t, p]
    | _ =>
      if isFlush then 6 :: rs
      else if isStraight then [5, straightHigh]
      else
        match groups with
        | (3, t) :: rest => 4 :: t :: rest.map (fun g => g.2)
        | [(2, p1), (2, p2), (_, k)] => [3, p1, p2, k]
        | (2, p) :: rest => 2 :: p :: rest.map (fun g => g.2)
        | _ => 1 :: rs

/-- All 5-card subsets of the input (21 subsets of a 7-card hand). -/
def fiveCardSubsets (cards : List Card) : List (List Card) :=
  cards.sublists.filter (fun l => l.length == 5)

/-- Maximum of `specEval5Key` over every 5-card subset, under the spec's
lexicographic order (`[]` is the identity: every real key exceeds it). -/
def bestSubsetKey (cards : List Card) : List Nat :=
  ((fiveCardSubsets cards).map specEval5Key).foldl
    (fun best k => if keyLt best k then k else best) []

/-! ### Game state (src/server/src/index.ts, src/unnamed/part_002) -/

inductive Phase
  | preFlop
  | flop
  | turn
  | river
  | showdown
deriving DecidableEq, BEq

structure Player where
  id : String
  name : String
  chips : Int
  cards : List Card
  isActive : Bool
  currentBet : Int
  isTurn : Bool
  isDealer : Bool
  hasActed : Bool
  isAllIn : Bool
  isWinner : Bool
  isSittingOut : Bool
  seatNumber : Option Nat
  isReadyToPlay : Bool
deriving DecidableEq

structure GameState where
  players : List Player
  communityCards : List Card
  deck : List Card
  pot : Int
  currentBet : Int
  phase : Phase
  activePlayerId : Option String
  dealerId : Option String
  smallBlind : Int
  bigBlind : Int
  lastBetPlayerId : Option String
  maxPlayers : Nat
  availableSeats : List Nat
deriving DecidableEq

/-- index.ts configuration constants. -/
def SMALL_BLIND : Int := 10
def BIG_BLIND : Int := 20
def MIN_BUY_IN : Int := 20
def MAX_PLAYERS : Nat := 6

/-! ### Turn rotation and round-completion check (index.ts) -/

/-- The `while` loop of index.ts lines 400-407 (and 441-448): starting after
index `i`, find the first player that is active with nonzero chips, visiting
at most the other `n - 1` indices; if the scan wraps all the way around, the
loop breaks back at `i` itself. -/
def findNextIndex (ps : List Player) (i : Nat) : Nat :=
  (((List.range (ps.length - 1)).map (fun k => (i + 1 + k) % ps.length)).find?
    (fun j =>
      match ps[j]? with
      | some p => p.isActive && !(p.chips == 0)
      | none => false)).getD i

/-- index.ts lines 416-426 (also 347-357 and 457-467): the betting round is
complete when every contesting player has acted (or is broke or all-in) and
all contesting bets match `table.currentBet` (all-in or broke players
exempt). -/
def bettingComplete (s : GameState) : Bool :=
  let activePlayers := s.players.filter (fun p => p.isActive)
  let allPlayersActed := activePlayers.all
    (fun p => p.hasActed || p.chips == 0 || p.isAllIn)
  let allBetsEqual := activePlayers.all
    (fun p => p.currentBet == s.currentBet || !p.isActive || p.isAllIn ||
      (p.chips == 0 && decide (p.currentBet < s.currentBet)))
  allPlayersActed && allBetsEqual

/-- The synchronous effect of index.ts `nextPhase` (lines 165-254): the phase
label advances immediately; dealing, betting-round reset and showdown run in
`setTimeout` callbacks, modelled as the separate steps `streetDeal`,
`resetBettingRound` and `determineWinner`. -/
def nextPhaseSync (s : GameState) : GameState :=
  match s.phase with
  | Phase.preFlop => { s with phase := Phase.flop }
  | Phase.flop => { s with phase := Phase.turn }
  | Phase.turn => { s with phase := Phase.river }
  | Phase.river => { s with phase := Phase.showdown }
  | Phase.showdown => s

/-- The `forEach` of index.ts lines 410-412 walking the roster with its
index: `p.isTurn = (k === j)`. -/
def setTurnGo (j : Nat) : List Player → Nat → List Player
  | [], _ => []
  | p :: rest, k => { p with isTurn := decide (k = j) } :: setTurnGo j rest (k + 1)

def setTurn (ps : List Player) (j : Nat) : List Player := setTurnGo j ps 0

/-- index.ts lines 399-433: rotate the turn to the next active player with
chips after index `i`, then run the completion check and advance the phase
if the round ended. -/
def advanceAfterAction (s : GameState) (i : Nat) : GameState :=
  let j := findNextIndex s.players i
  let ps := setTurn s.players j
  let s2 := { s with
    players := ps,
    activePlayerId := (match ps[j]? with | some p => some p.id | none => none) }
  if bettingComplete s2 then nextPhaseSync s2 else s2

/-- index.ts `handleNextTurn` (lines 437-475): the same rotation starting
from the current `activePlayerId`. When `activePlayerId` is not on the
roster the JS loop never terminates; that branch is unreachable (the id is
always a roster player's) and modelled as the identity. -/
def handleNextTurn (s : GameState) : GameState :=
  match s.players.findIdx? (fun p => some p.id == s.activePlayerId) with
  | some i => advanceAfterAction s i
  | none => s

/-! ### The three raise implementations -/

/-- The acceptance test of the raise branch of index.ts `handleAction`
(lines 378-382) and of part_002 lines 410-413: `!amount` rejects, then
`amount >= player.chips` (all-in) or `amount >= table.currentBet * 2`. -/
def raiseValid (chips currentBet amount : Int) : Bool :=
  !(amount == 0) && (decide (chips ≤ amount) || decide (2 * currentBet ≤ amount))

/-- The mutations of an accepted raise in index.ts `handleAction`
(lines 384-395): `amount` is a raise-to total, the delta is
`min(amount - player.currentBet, player.chips)`; sets `table.currentBet`,
the pot, `lastBetPlayerId` and the raiser's `hasActed`/`isAllIn`. -/
def raiseApply (s : GameState) (i : Nat) (player : Player) (amount : Int) : GameState :=
  let raiseAmount := min (amount - player.currentBet) player.chips
  let p1 := { player with
    chips := player.chips - raiseAmount,
    currentBet := player.currentBet + raiseAmount, hasActed := true }
  let p2 := if p1.chips == 0 then { p1 with isAllIn := true } else p1
  { s with
    players := s.players.set i p2,
    currentBet := player.currentBet + raiseAmount,
    pot := s.pot + raiseAmount,
    lastBetPlayerId := some player.id }

/-- The raise case of the top-level `handleAction` in index.ts
(lines 377-396), for the player at index `i`. -/
def raiseTopLevel (s : GameState) (i : Nat) (amount : Int) : GameState :=
  match s.players[i]? with
  | none => s
  | some player =>
    if raiseValid player.chips s.currentBet amount then raiseApply s i player amount
    else s

/-- The raise case of the inline handler registered on the socket "action"
event in index.ts (lines 696-719): `amount` is an additional wager
(`raiseAmount = min(amount, player.chips)`), acceptance is
`raiseAmount >= currentBet * 2 || raiseAmount === player.chips`; it clears
`hasActed` of every other contesting non-all-in player and never touches
`lastBetPlayerId`. -/
def raiseInline (s : GameState) (i : Nat) (amount : Int) : GameState :=
  match s.players[i]? with
  | none => s
  | some player =>
    let minRaise := 2 * s.currentBet
    let raiseAmount := min amount player.chips
    if decide (minRaise ≤ raiseAmount) || raiseAmount == player.chips then
      let p1 := { player with
        chips := player.chips - raiseAmount,
        currentBet := player.currentBet + raiseAmount, hasActed := true }
      let ps1 := s.players.set i p1
      let ps2 := ps1.map (fun p =>
        if !(p.id == player.id) && p.isActive && !p.isAllIn then
          { p with hasActed := false } else p)
      let ps3 := ps2.set i (if p1.chips == 0 then { p1 with isAllIn := true } else p1)
      { s with
        players := ps3, pot := s.pot + raiseAmount,
        currentBet := player.currentBet + raiseAmount }
    else s

/-- The raise case of `handleAction` in the part_002 server variant
(lines 409-433): the index.ts top-level arithmetic plus the
clear-`hasActed`-for-others loop and `lastBetPlayerId`. -/
def raiseVariant2 (s : GameState) (i : Nat) (amount : Int) : GameState :=
  match s.players[i]? with
  | none => s
  | some player =>
    if raiseValid player.chips s.currentBet amount then
      let raiseAmount := min (amount - player.currentBet) player.chips
      let p1 := { player with
        chips := player.chips - raiseAmount,
        currentBet := player.currentBet + raiseAmount, hasActed := true }
      let ps1 := s.players.set i p1
      let ps2 := ps1.map (fun p =>
        if !(p.id == player.id) && p.isActive && !p.isAllIn then
          { p with hasActed := false } else p)
      let ps3 := ps2.set i (if p1.chips == 0 then { p1 with isAllIn := true } else p1)
      { s with
        players := ps3,
        currentBet := player.currentBet + raiseAmount,
        pot := s.pot + raiseAmount,
        lastBetPlayerId := some player.id }
    else s

/-! ### The top-level action dispatcher (index.ts `handleAction`, lines 289-434) -/

/-- index.ts `handleAction`: guard on `activePlayerId`, then the
fold/check/call/raise switch. The fold settlement runs 750ms later
(`foldSettle` below); an unrecognized action string falls through the switch
into the turn-advance tail. -/
def handleAction (s : GameState) (action : String) (amount : Int) (playerId : String) :
    GameState :=
  if !(s.activePlayerId == some playerId) then s
  else
    match s.players.findIdx? (fun p => p.id == playerId) with
    | none => s
    | some i =>
      match s.players[i]? with
      | none => s
      | some player =>
        if action == "fold" then
          { s with players :=
              s.players.set i { player with isActive := false, hasActed := true } }
        else if action == "check" then
          if decide (player.currentBet < s.currentBet) then s
          else
            let s1 := { s with players := s.players.set i { player with hasActed := true } }
            if bettingComplete s1 then nextPhaseSync s1 else handleNextTurn s1
        else if action == "call" then
          let callAmount := min (s.currentBet - player.currentBet) player.chips
          let p1 := { player with
            chips := player.chips - callAmount,
            currentBet := player.currentBet + callAmount, hasActed := true }
          let p2 := if p1.chips == 0 then { p1 with isAllIn := true } else p1
          advanceAfterAction
            { s with players := s.players.set i p2, pot := s.pot + callAmount } i
        else if action == "raise" then
          if raiseValid player.chips s.currentBet amount then
            advanceAfterAction (raiseApply s i player amount) i
          else s
        else advanceAfterAction s i

/-! ### Settlement steps -/

/-- `winner.chips += gameState.pot; winner.isWinner = true` applied through
the winner's id (the JS code mutates the found object inside the array). -/
def awardPotTo (ps : List Player) (wid : String) (pot : Int) : List Player :=
  ps.map (fun p =>
    if p.id == wid then { p with chips := p.chips + pot, isWinner := true } else p)

/-- index.ts `determineWinner` (lines 541-568): `r` is the value of
`Math.floor(Math.random() * activePlayers.length)` (always below the length
when any contesting player exists). The winner is the random contesting
player; hands are never evaluated, ties never split, and the pot field is
left unchanged (it is cleared only by the next `startNewRound`). -/
def determineWinner (s : GameState) (r : Nat) : GameState :=
  let activePlayers := s.players.filter (fun p => p.isActive)
  match activePlayers[r]? with
  | none => s
  | some w => { s with players := awardPotTo s.players w.id s.pot }

/-- index.ts `handleTimerExpiration` (lines 55-83): force the player sitting
out and inactive; if at most one contesting player remains and one exists,
award the pot (without clearing the pot field), else advance the turn. -/
def handleTimerExpiration (s : GameState) (playerId : String) : GameState :=
  match s.players.findIdx? (fun p => p.id == playerId) with
  | none => s
  | some i =>
    match s.players[i]? with
    | none => s
    | some player =>
      let ps1 := s.players.set i { player with isSittingOut := true, isActive := false }
      let s1 := { s with players := ps1 }
      let activePlayers := ps1.filter (fun p => p.isActive)
      if activePlayers.length ≤ 1 then
        match activePlayers with
        | w :: _ => { s1 with players := awardPotTo ps1 w.id s1.pot }
        | [] => handleNextTurn s1
      else handleNextTurn s1

/-- The fold branch's 750ms callback in index.ts (lines 306-337): if exactly
one contesting player remains they take the pot and the pot is cleared;
otherwise play continues. -/
def foldSettle (s : GameState) : GameState :=
  let activePlayers := s.players.filter (fun p => p.isActive)
  match activePlayers with
  | [w] => { s with players := awardPotTo s.players w.id s.pot, pot := 0 }
  | _ => handleNextTurn s

/-! ### New round, dealing and blinds (index.ts `startNewRound`, lines 96-163) -/

/-- index.ts `resetPlayerActions` (lines 47-53): note that it re-activates
every roster player, sitting-out and seatless ones included. -/
def resetPlayerActions (ps : List Player) : List Player :=
  ps.map (fun p => { p with hasActed := false, currentBet := 0, isActive := true })

/-- The synchronous part of index.ts `startNewRound` (lines 96-103); the
fresh shuffled module-level deck is a parameter of the dealing step. -/
def startNewRoundSync (s : GameState) : GameState :=
  { s with
    players := resetPlayerActions s.players, communityCards := [],
    pot := 0, currentBet := 0, phase := Phase.preFlop, lastBetPlayerId := none }

/-- Modelled from the spec: the Deck Manager operation
`deal(deck, n) -> (drawnCards, remainingDeck)` of section 4.1
(`src/server/src/lib/poker.ts` is imported by index.ts but is not among the
source files). -/
def dealCards (deck : List Card) (n : Nat) : List Card × List Card :=
  (deck.take n, deck.drop n)

/-- The dealing loop of index.ts lines 114-118: every roster player receives
2 cards from the running deck, whether seated or not. -/
def dealToPlayers : List Player → List Card → List Player
  | [], _ => []
  | p :: rest, d =>
    { p with cards := (dealCards d 2).1 } :: dealToPlayers rest (dealCards d 2).2

/-- The dealer/blind `forEach` of index.ts lines 128-142, walking the roster
with its index: marks dealer and first-to-act, posts the small/big blind when
affordable, and reports the pot delta and the big-blind player id. -/
def postBlindsGo (dealer sb bb first : Nat) :
    List Player → Nat → List Player × Int × Option String
  | [], _ => ([], 0, none)
  | p :: rest, k =>
    let p1 := { p with isDealer := decide (k = dealer), isTurn := decide (k = first) }
    let step :=
      if k = sb ∧ SMALL_BLIND ≤ p1.chips then
        ({ p1 with chips := p1.chips - SMALL_BLIND, currentBet := SMALL_BLIND },
          SMALL_BLIND, (none : Option String))
      else if k = bb ∧ BIG_BLIND ≤ p1.chips then
        ({ p1 with chips := p1.chips - BIG_BLIND, currentBet := BIG_BLIND },
          BIG_BLIND, some p1.id)
      else (p1, 0, none)
    let tail := postBlindsGo dealer sb bb first rest (k + 1)
    (step.1 :: tail.1, step.2.1 + tail.2.1,
      match tail.2.2 with | some x => some x | none => step.2.2)

/-- `Math.max(...players.map(p => p.currentBet))`; the roster is nonempty at
every call site. -/
def maxBetOf (ps : List Player) : Int :=
  match ps.map (fun p => p.currentBet) with
  | [] => 0
  | b :: bs => bs.foldl max b

/-- index.ts `startNewRound` including its 5-second dealing callback
(lines 96-163): reset, deal 2 cards to every roster player, rotate the
dealer button, post blinds, set `currentBet` to the highest posted bet and
hand the turn to the player after the big blind. -/
def startNewRoundDealt (s : GameState) (freshDeck : List Card) : GameState :=
  let s0 := startNewRoundSync s
  let psDealt := dealToPlayers s0.players freshDeck
  match psDealt.length with
  | 0 => { s0 with players := psDealt }
  | Nat.succ n =>
    let n1 := n + 1
    let newDealer :=
      match psDealt.findIdx? (fun p => p.isDealer) with
      | some k => (k + 1) % n1
      | none => 0
    let sb := (newDealer + 1) % n1
    let bb := (newDealer + 2) % n1
    let first := (newDealer + 3) % n1
    let res := postBlindsGo newDealer sb bb first psDealt 0
    let ps2 := res.1
    { s0 with
      players := ps2, pot := s0.pot + res.2.1,
      currentBet := maxBetOf ps2,
      lastBetPlayerId := res.2.2,
      dealerId := (match ps2[newDealer]? with | some p => some p.id | none => none),
      activePlayerId := (match ps2[first]? with | some p => some p.id | none => none) }

/-! ### Street advance callbacks (index.ts lines 181-287) -/

/-- The `while` loop of index.ts `resetBettingRound` lines 269-271, with fuel
(the JS loop does not terminate when no active non-all-in player exists;
that situation is unreachable at its call sites). -/
def findNextActive (ps : List Player) (start fuel : Nat) : Nat :=
  match fuel with
  | 0 => start
  | Nat.succ f =>
    match ps[start]? with
    | some p =>
      if p.isActive && !p.isAllIn then start
      else findNextActive ps ((start + 1) % ps.length) f
    | none => start

/-- index.ts `resetBettingRound` (lines 256-287): zero the bets and
`hasActed` of contesting non-all-in players, clear the table bet and last
bettor, and give the turn to the first contesting non-all-in player after
the dealer. -/
def resetBettingRound (s : GameState) : GameState :=
  let ps1 := s.players.map (fun p =>
    if p.isActive && !p.isAllIn then { p with hasActed := false, currentBet := 0 } else p)
  let startIdx :=
    match ps1.findIdx? (fun p => p.isDealer) with
    | some k => (k + 1) % ps1.length
    | none => 0
  let j := findNextActive ps1 startIdx ps1.length
  let ps2 := setTurn ps1 j
  { s with
    players := ps2, currentBet := 0, lastBetPlayerId := none,
    activePlayerId := (match ps2[j]? with | some p => some p.id | none => none) }

/-- The street-dealing callbacks of index.ts `nextPhase` (lines 181-227):
append the newly dealt community cards, then reset the betting round unless
every contesting player is all-in (at the flop the community is empty, so
appending equals the source's assignment). -/
def streetDeal (s : GameState) (newCards : List Card) (allPlayersAllIn : Bool) : GameState :=
  let s1 := { s with communityCards := s.communityCards ++ newCards }
  if allPlayersAllIn then s1 else resetBettingRound s1

/-! ### Seat and buy-in management (index.ts lines 607-633 and 746-784) -/

/-- index.ts `socket.on("buyIn")`: reject below the minimum or an
unavailable seat (no mutation), else set chips to the amount, assign the
seat, remove it from `availableSeats`, and start a round when two ready
players exist pre-flop. A previously held seat is never returned. -/
def buyIn (s : GameState) (socketId : String) (amount : Int) (seatNumber : Nat) :
    GameState :=
  match s.players.findIdx? (fun p => p.id == socketId) with
  | none => s
  | some i =>
    match s.players[i]? with
    | none => s
    | some player =>
      if decide (amount < MIN_BUY_IN) || !(s.availableSeats.contains seatNumber) then s
      else
        let p1 : Player := { player with
          chips := amount, seatNumber := some seatNumber,
          isSittingOut := false, isReadyToPlay := true }
        let s1 : GameState := { s with
          players := s.players.set i p1,
          availableSeats := s.availableSeats.filter (fun x => !(x == seatNumber)) }
        let readyPlayers : List Player :=
          s1.players.filter (fun p => p.isReadyToPlay && !p.isSittingOut)
        if 2 ≤ readyPlayers.length ∧ s1.phase = Phase.preFlop ∧ s1.communityCards = [] then
          startNewRoundSync s1
        else s1

/-- Ascending insertion sort on seat numbers, the JS
`availableSeats.sort((a, b) => a - b)`. -/
def insertAsc (a : Nat) : List Nat → List Nat
  | [] => [a]
  | b :: bs => if a ≤ b then a :: b :: bs else b :: insertAsc a bs

def sortAsc (l : List Nat) : List Nat := l.foldr insertAsc []

/-- index.ts `socket.on("disconnect")` (lines 746-784): return the seat (if
any), run timer-expiry handling when the player held the turn, drop them
from the roster, and reset the table when fewer than 2 non-sitting-out
players remain. -/
def disconnect (s : GameState) (socketId : String) : GameState :=
  let s1 :=
    match s.players.find? (fun p => p.id == socketId) with
    | none => s
    | some player =>
      let s0 :=
        match player.seatNumber with
        | some seat => { s with availableSeats := sortAsc (s.availableSeats ++ [seat]) }
        | none => s
      if player.isTurn then handleTimerExpiration s0 player.id else s0
  let s2 := { s1 with players := s1.players.filter (fun p => !(p.id == socketId)) }
  if decide ((s2.players.filter (fun p => !p.isSittingOut)).length < 2) then
    { s2 with
      communityCards := [], deck := [], pot := 0, currentBet := 0,
      phase := Phase.preFlop, activePlayerId := none, dealerId := none,
      lastBetPlayerId := none }
  else s2

/-! ### Accounting and seat bookkeeping quantities -/

def sumBy (f : Player → Int) (ps : List Player) : Int := (ps.map f).sum

/-- The conserved table money: every wager enters the pot the moment it is
placed, so the real holdings are chips plus pot. -/
def money (s : GameState) : Int := sumBy (fun p => p.chips) s.players + s.pot

/-- The quantity named by the spec's chip-conservation invariant:
chips + pot + pending bets. -/
def specQuantity (s : GameState) : Int :=
  sumBy (fun p => p.chips) s.players + s.pot + sumBy (fun p => p.currentBet) s.players

/-- Seat numbers held by roster players. -/
def occupiedSeats (s : GameState) : List Nat :=
  s.players.filterMap (fun p => p.seatNumber)

/-- The spec's seat invariant: occupied seats are pairwise distinct, all
seats live in `0..maxPlayers-1`, and every seat index is available or
occupied. -/
def seatInvariant (s : GameState) : Bool :=
  decide (occupiedSeats s).Nodup &&
  (occupiedSeats s).all (fun k => decide (k < s.maxPlayers)) &&
  s.availableSeats.all (fun k => decide (k < s.maxPlayers)) &&
  (List.range s.maxPlayers).all
    (fun k => s.availableSeats.contains k || (occupiedSeats s).contains k)

/-! ### Concrete fixtures used by the claim theorems -/

def cAh : Card := { suit := Suit.hearts, rank := Rank.rA }
def c2h : Card := { suit := Suit.hearts, rank := Rank.r2 }
def c3h : Card := { suit := Suit.hearts, rank := Rank.r3 }
def c4h : Card := { suit := Suit.hearts, rank := Rank.r4 }
def c5h : Card := { suit := Suit.hearts, rank := Rank.r5 }
def c6h : Card := { suit := Suit.hearts, rank := Rank.r6 }
def c7h : Card := { suit := Suit.hearts, rank := Rank.r7 }
def c8h : Card := { suit := Suit.hearts, rank := Rank.r8 }
def c9h : Card := { suit := Suit.hearts, rank := Rank.r9 }
def cAs : Card := { suit := Suit.spades, rank := Rank.rA }
def cKs : Card := { suit := Suit.spades, rank := Rank.rK }
def cQs : Card := { suit := Suit.spades, rank := Rank.rQ }
def cJs : Card := { suit := Suit.spades, rank := Rank.rJ }
def cTs : Card := { suit := Suit.spades, rank := Rank.r10 }
def c2s : Card := { suit := Suit.spades, rank := Rank.r2 }
def c2d : Card := { suit := Suit.diamonds, rank := Rank.r2 }
def c7c : Card := { suit := Suit.clubs, rank := Rank.r7 }
def c8c : Card := { suit := Suit.clubs, rank := Rank.r8 }
def c9c : Card := { suit := Suit.clubs, rank := Rank.r9 }

/-- A seated, ready player with default flags. -/
def basePlayer (pid : String) (chips : Int) : Player :=
  { id := pid, name := pid, chips := chips, cards := [], isActive := true,
    currentBet := 0, isTurn := false, isDealer := false, hasActed := false,
    isAllIn := false, isWinner := false, isSittingOut := false,
    seatNumber := none, isReadyToPlay := true }

/-- A table in its initial configuration holding the given roster. -/
def baseState (ps : List Player) : GameState :=
  { players := ps, communityCards := [], deck := [], pot := 0, currentBet := 0,
    phase := Phase.preFlop, activePlayerId := none, dealerId := none,
    smallBlind := SMALL_BLIND, bigBlind := BIG_BLIND, lastBetPlayerId := none,
    maxPlayers := MAX_PLAYERS, availableSeats := [0, 1, 2, 3, 4, 5] }

def wheelCards : List Card := [cAh, c2h, c3h, c4h, c5h]

def c3cards : List Card := [cAh, c9h, c8h, c7h, c6h, c5h, c2s]

def c1Board : List Card := [cQs, cJs, cTs, c3h, c4h]

def c1PlayerA : Player := { basePlayer "alice" 1000 with cards := [cAs, cKs] }

def c1PlayerB : Player := { basePlayer "bob" 1000 with cards := [c2d, c7c] }

def c1State : GameState :=
  { baseState [c1PlayerA, c1PlayerB] with
    communityCards := c1Board, pot := 100, phase := Phase.showdown }

/-! ### C1, C2, C3 -/

/-- C1: falsified (code bug). At showdown `determineWinner` awards the whole
pot to a uniformly random contesting player: with the random draw `r = 1`
the pot goes to the player holding the strictly weaker hand (high card
versus royal flush), the pot field is never cleared, and the outcome differs
between draws `r = 0` and `r = 1`, so the winner is not a function of the
cards. -/
theorem determineWinner_is_random_not_hand_comparison :
    keyLt (handKey (findBestHand c1PlayerB.cards c1Board))
        (handKey (findBestHand c1PlayerA.cards c1Board)) = true ∧
    (determineWinner c1State 1).players.map (fun p => p.chips) = [1000, 1100] ∧
    (determineWinner c1State 0).players.map (fun p => p.chips) = [1100, 1000] ∧
    determineWinner c1State 0 ≠ determineWinner c1State 1 ∧
    (determineWinner c1State 1).pot = 100 := by decide

/-- C2: falsified (code bug). On the literal wheel input the evaluator does
return the Straight Flush tier with the hand read as 5-high, but its `cards`
field holds only the four cards 5-4-3-2: the Ace is lost, because
`checkStraight` searches for a card of rank value 1 that does not exist. -/
theorem evaluateHand_wheel_drops_the_ace :
    (evaluateHand wheelCards).rank = HandRank.STRAIGHT_FLUSH ∧
    headRankValue (evaluateHand wheelCards).cards = 5 ∧
    (evaluateHand wheelCards).cards = [c5h, c4h, c3h, c2h] ∧
    (evaluateHand wheelCards).cards.length = 4 ∧
    (evaluateHand wheelCards).cards.contains cAh = false := by decide

/-- C3: falsified (code bug). On {A9876 of hearts, 2 of spades} the
pattern-based evaluator returns a Flush (tier 6) because `checkFlush` keeps
only the five highest hearts and the straight-flush test runs on those,
while the exhaustive maximum over all 21 five-card subsets is the 9-high
Straight Flush (key [9, 9]); the shortcut therefore returns a strictly
weaker hand than exhaustive search. -/
theorem evaluateHand_weaker_than_exhaustive_search :
    (evaluateHand c3cards).rank = HandRank.FLUSH ∧
    bestSubsetKey c3cards = [9, 9] ∧
    keyLt (handKey (evaluateHand c3cards)) (bestSubsetKey c3cards) = true := by decide

/-! ### C7 -/

def c7Spectator : Player :=
  { basePlayer "carol" 0 with
    isActive := false, isSittingOut := true, isReadyToPlay := false }

def c7State : GameState :=
  { baseState
      [{ basePlayer "alice" 1000 with seatNumber := some 0 },
       { basePlayer "bob" 500 with seatNumber := some 1 },
       c7Spectator] with
    availableSeats := [2, 3, 4, 5] }

def c7Deck : List Card := [cAs, cKs, cQs, cJs, cTs, c2s, c2d, c7c, c8c, c9c]

/-- C7: falsified (code bug). Starting a hand deals two hole cards to every
roster player and re-activates every roster player: the seatless,
sitting-out spectator (0 chips, not ready) ends up contesting the hand with
two hole cards. -/
theorem startNewRound_deals_to_sitting_out_players :
    c7Spectator.isSittingOut = true ∧ c7Spectator.seatNumber = none ∧
    c7Spectator.cards = [] ∧
    (startNewRoundDealt c7State c7Deck).players.map (fun p => p.cards.length) =
      [2, 2, 2] ∧
    (startNewRoundDealt c7State c7Deck).players.map (fun p => p.isActive) =
      [true, true, true] ∧
    (startNewRoundDealt c7State c7Deck).players.map (fun p => p.isSittingOut) =
      [false, false, true] := by decide

/-! ### C9 -/

def c9Player : Player := { basePlayer "alice" 100 with seatNumber := some 2 }

def c9State : GameState := { baseState [c9Player] with availableSeats := [0, 1, 3, 4, 5] }

/-- C9: falsified (code bug). A second successful buy-in by an already
seated player assigns the new seat without returning the old one: seat 2
ends up neither occupied nor available, and even a subsequent disconnect
(which returns only the current seat 3) leaves seat 2 lost, so
availableSeats together with the occupied seats no longer covers
`0..maxSeats-1`. -/
theorem buyIn_leaks_previously_held_seat :
    seatInvariant c9State = true ∧
    (buyIn c9State "alice" 100 3).availableSeats = [0, 1, 4, 5] ∧
    occupiedSeats (buyIn c9State "alice" 100 3) = [3] ∧
    seatInvariant (buyIn c9State "alice" 100 3) = false ∧
    seatInvariant (disconnect (buyIn c9State "alice" 100 3) "alice") = false := by decide

/-! ### C4 -/

def c4State : GameState :=
  { baseState [basePlayer "alice" 1000, basePlayer "bob" 1000] with
    phase := Phase.flop, pot := 40, activePlayerId := some "alice" }

/-- C4 counterexample: post-flop with `table.currentBet = 0` and
`bigBlind = 20`, a raise of 5 by a 1000-chip player is accepted (the pot and
table bet change), both by the raise branch and by the full dispatcher,
where the claim requires rejection with no state change. -/
theorem raise_below_one_big_blind_accepted :
    c4State.currentBet = 0 ∧ c4State.bigBlind = 20 ∧
    raiseTopLevel c4State 0 5 ≠ c4State ∧
    (raiseTopLevel c4State 0 5).pot = 45 ∧
    (raiseTopLevel c4State 0 5).currentBet = 5 ∧
    (handleAction c4State "raise" 5 "alice").pot = 45 := by decide

/-- C4 amended: a raise is accepted iff the amount is nonzero and either
`amount >= player.chips` (all-in) or `amount >= 2 * table.currentBet`. This
coincides with the spec's `currentBet + max(currentBet, bigBlind)` rule
whenever `bigBlind <= currentBet` (hence all the `currentBet = 20` examples:
30 rejected, 40 accepted, an all-in stack accepted), a rejected raise leaves
the state unchanged, but with `currentBet = 0` the one-big-blind minimum is
not enforced. -/
theorem raise_rule_as_implemented :
    (∀ chips cb amount : Int, raiseValid chips cb amount = true ↔
      (¬amount = 0 ∧ (chips ≤ amount ∨ 2 * cb ≤ amount))) ∧
    (∀ chips cb bb amount : Int, bb ≤ cb → 1 ≤ amount →
      (raiseValid chips cb amount = true ↔ (chips ≤ amount ∨ cb + max cb bb ≤ amount))) ∧
    (∀ (s : GameState) (i : Nat) (amount : Int) (player : Player),
      s.players[i]? = some player →
      raiseValid player.chips s.currentBet amount = false →
      raiseTopLevel s i amount = s) ∧
    raiseValid 1000 20 30 = false ∧
    raiseValid 1000 20 40 = true ∧
    (∀ chips : Int, 1 ≤ chips → raiseValid chips 20 chips = true) := by
  refine ⟨?_, ?_, ?_, by decide, by decide, ?_⟩
  · intro chips cb amount
    simp [raiseValid]
  · intro chips cb bb amount h1 h2
    rw [max_eq_left h1]
    simp only [raiseValid, Bool.and_eq_true, Bool.or_eq_true, Bool.not_eq_true',
      beq_eq_false_iff_ne, ne_eq, decide_eq_true_eq]
    omega
  · intro s i amount player hp hv
    unfold raiseTopLevel
    rw [hp]
    simp [hv]
  · intro chips h
    simp only [raiseValid, Bool.and_eq_true, Bool.or_eq_true, Bool.not_eq_true',
      beq_eq_false_iff_ne, ne_eq, decide_eq_true_eq]
    omega

/-- Witness for the amended C4 rule at concrete inputs. -/
theorem raise_rule_as_implemented_witness :
    (raiseValid 1000 20 40 = true ↔ ((1000 : Int) ≤ 40 ∨ (20 : Int) + max 20 20 ≤ 40)) ∧
    raiseTopLevel c4State 0 0 = c4State ∧
    raiseValid 35 20 35 = true := by
  refine ⟨?_, ?_, ?_⟩
  · exact raise_rule_as_implemented.2.1 1000 20 20 40 (by decide) (by decide)
  · exact raise_rule_as_implemented.2.2.1 c4State 0 0 (basePlayer "alice" 1000)
      (by rfl) (by decide)
  · exact raise_rule_as_implemented.2.2.2.2.2 35 (by decide)

/-! ### C8 -/

/-- C8 confirmed: each of the enumerated rejection cases — sender not the
active player, check against a higher table bet, invalid raise, and buy-in
below the minimum or into an unavailable seat — returns the game state
entirely unchanged (the model is a total function, mirroring that the
TypeScript handlers return early on these paths and throw nothing). -/
theorem rejected_requests_leave_state_unchanged :
    (∀ (s : GameState) (a : String) (amt : Int) (pid : String),
      ¬s.activePlayerId = some pid → handleAction s a amt pid = s) ∧
    (∀ (s : GameState) (amt : Int) (pid : String) (i : Nat) (player : Player),
      s.players.findIdx? (fun p => p.id == pid) = some i →
      s.players[i]? = some player →
      player.currentBet < s.currentBet →
      handleAction s "check" amt pid = s) ∧
    (∀ (s : GameState) (amt : Int) (pid : String) (i : Nat) (player : Player),
      s.players.findIdx? (fun p => p.id == pid) = some i →
      s.players[i]? = some player →
      raiseValid player.chips s.currentBet amt = false →
      handleAction s "raise" amt pid = s) ∧
    (∀ (s : GameState) (pid : String) (amount : Int) (seat : Nat),
      amount < MIN_BUY_IN ∨ ¬seat ∈ s.availableSeats →
      buyIn s pid amount seat = s) := by
  refine ⟨?_, ?_, ?_, ?_⟩
  · intro s a amt pid h
    have hb : (s.activePlayerId == some pid) = false := by
      simpa [beq_eq_false_iff_ne] using h
    unfold handleAction
    rw [hb]
    rfl
  · intro s amt pid i player hfi hgi hlt
    by_cases hact : s.activePlayerId = some pid
    · have hb : (s.activePlayerId == some pid) = true := by simpa [beq_iff_eq] using hact
      unfold handleAction
      simp [hb, hfi, hgi, hlt]
    · have hb : (s.activePlayerId == some pid) = false := by
        simpa [beq_eq_false_iff_ne] using hact
      unfold handleAction
      rw [hb]
      rfl
  · intro s amt pid i player hfi hgi hv
    by_cases hact : s.activePlayerId = some pid
    · have hb : (s.activePlayerId == some pid) = true := by simpa [beq_iff_eq] using hact
      unfold handleAction
      simp [hb, hfi, hgi, hv]
    · have hb : (s.activePlayerId == some pid) = false := by
        simpa [beq_eq_false_iff_ne] using hact
      unfold handleAction
      rw [hb]
      rfl
  · intro s pid amount seat h
    unfold buyIn
    cases hfi : s.players.findIdx? (fun p => p.id == pid) with
    | none => rfl
    | some i =>
      cases hgi : s.players[i]? with
      | none => simp [hgi]
      | some player =>
        rcases h with h | h
        · simp [hgi, h]
        · simp [hgi, h]

/-- Witness for the C8 rejection cases at concrete inputs. -/
def c8CheckState : GameState :=
  { baseState [basePlayer "alice" 1000, { basePlayer "bob" 980 with currentBet := 20 }] with
    currentBet := 20, pot := 20, activePlayerId := some "alice" }

theorem rejected_requests_leave_state_unchanged_witness :
    handleAction c4State "fold" 0 "bob" = c4State ∧
    handleAction c8CheckState "check" 0 "alice" = c8CheckState ∧
    handleAction c4State "raise" 0 "alice" = c4State ∧
    buyIn c4State "alice" 5 0 = c4State := by
  refine ⟨?_, ?_, ?_, ?_⟩
  · exact rejected_requests_leave_state_unchanged.1 c4State "fold" 0 "bob" (by decide)
  · exact rejected_requests_leave_state_unchanged.2.1 c8CheckState 0 "alice" 0
      (basePlayer "alice" 1000) (by rfl) (by rfl) (by decide)
  · exact rejected_requests_leave_state_unchanged.2.2.1 c4State 0 "alice" 0
      (basePlayer "alice" 1000) (by rfl) (by rfl) (by decide)
  · exact rejected_requests_leave_state_unchanged.2.2.2 c4State "alice" 5 0
      (Or.inl (by decide))

/-! ### C5 -/

def c5PlayerB : Player := { basePlayer "bob" 980 with currentBet := 20, hasActed := true }

def c5State : GameState :=
  { baseState [basePlayer "alice" 1000, c5PlayerB] with
    currentBet := 20, pot := 30, activePlayerId := some "alice" }

/-- C5 counterexample: an accepted raise to 40 by alice (bet 0, 1000 chips)
against table bet 20. The index.ts top-level raise moves the money and sets
`lastBetPlayerId` but leaves the other contesting non-all-in player's
`hasActed` at true (action is not reopened); the index.ts inline socket
raise clears bob's `hasActed` but never sets `lastBetPlayerId`. Each
violates one of the claimed postconditions. -/
theorem raise_postconditions_violated_in_index_ts :
    (raiseTopLevel c5State 0 40).pot = 70 ∧
    (raiseTopLevel c5State 0 40).lastBetPlayerId = some "alice" ∧
    (raiseTopLevel c5State 0 40).players.map (fun p => p.hasActed) = [true, true] ∧
    (raiseInline c5State 0 40).pot = 70 ∧
    (raiseInline c5State 0 40).players.map (fun p => p.hasActed) = [true, false] ∧
    (raiseInline c5State 0 40).lastBetPlayerId = none := by decide

/-- C5 amended: the raise branch of the part_002 `handleAction` establishes
every claimed postcondition: the delta `min(amount - bet, chips)` moves from
the raiser's chips into their bet and the pot, the table bet equals the
raiser's bet, `lastBetPlayerId` is the raiser, the raiser has acted, and
every other contesting non-all-in player has `hasActed = false` with money
untouched. (The two index.ts raise paths each miss one postcondition - see
the counterexample.) -/
theorem raiseVariant2_establishes_postconditions (s : GameState) (i : Nat) (amount : Int)
    (player : Player) (hp : s.players[i]? = some player)
    (hv : raiseValid player.chips s.currentBet amount = true) :
    (raiseVariant2 s i amount).pot =
      s.pot + min (amount - player.currentBet) player.chips ∧
    (raiseVariant2 s i amount).currentBet =
      player.currentBet + min (amount - player.currentBet) player.chips ∧
    (raiseVariant2 s i amount).lastBetPlayerId = some player.id ∧
    (∃ q, (raiseVariant2 s i amount).players[i]? = some q ∧
      q.chips = player.chips - min (amount - player.currentBet) player.chips ∧
      q.currentBet = player.currentBet + min (amount - player.currentBet) player.chips ∧
      q.hasActed = true) ∧
    (∀ (j : Nat) (q : Player), ¬j = i → s.players[j]? = some q → ¬q.id = player.id →
      q.isActive = true → q.isAllIn = false →
      ∃ q2, (raiseVariant2 s i amount).players[j]? = some q2 ∧ q2.hasActed = false ∧
        q2.chips = q.chips ∧ q2.currentBet = q.currentBet ∧ q2.isActive = true) := by
  have hlen : i < s.players.length := (List.getElem?_eq_some.mp hp).1
  unfold raiseVariant2
  rw [hp]
  simp only [hv, if_true]
  refine ⟨by simp, by simp, by simp, ?_, ?_⟩
  · rw [List.getElem?_set_self (by simpa using hlen)]
    refine ⟨_, rfl, ?_, ?_, ?_⟩ <;> (split <;> rfl)
  · intro j q hji hgj hqid hact hallin
    have hbeq : (q.id == player.id) = false := by
      simpa [beq_eq_false_iff_ne] using hqid
    rw [List.getElem?_set_ne (fun hh => hji hh.symm), List.getElem?_map,
      List.getElem?_set_ne (fun hh => hji hh.symm), hgj]
    refine ⟨_, rfl, ?_, ?_, ?_, ?_⟩ <;> simp [hbeq, hact, hallin]

/-- Witness for the part_002 raise postconditions at a concrete state. -/
theorem raiseVariant2_establishes_postconditions_witness :
    (raiseVariant2 c5State 0 40).lastBetPlayerId = some "alice" ∧
    (raiseVariant2 c5State 0 40).pot = 30 + min (40 - 0) 1000 :=
  ⟨(raiseVariant2_establishes_postconditions c5State 0 40 (basePlayer "alice" 1000)
      rfl (by decide)).2.2.1,
   (raiseVariant2_establishes_postconditions c5State 0 40 (basePlayer "alice" 1000)
      rfl (by decide)).1⟩

/-! ### C10 -/

def c10State : GameState :=
  { baseState [{ basePlayer "alice" 990 with currentBet := 10 }, c5PlayerB] with
    currentBet := 20, pot := 30, activePlayerId := some "alice" }

/-- C10 counterexample: with the raiser already having 10 chips in front
(table bet 20) and a request of 40, the top-level raise treats 40 as a
raise-to total (delta 30, table bet 40, `lastBetPlayerId` set, bob's
`hasActed` kept) while the inline socket raise treats 40 as an increment
(delta 40, table bet 50, `lastBetPlayerId` untouched, bob's `hasActed`
cleared): every compared field differs. -/
theorem raise_branches_not_equivalent :
    (raiseTopLevel c10State 0 40).players.map (fun p => p.chips) = [960, 980] ∧
    (raiseInline c10State 0 40).players.map (fun p => p.chips) = [950, 980] ∧
    (raiseTopLevel c10State 0 40).currentBet = 40 ∧
    (raiseInline c10State 0 40).currentBet = 50 ∧
    (raiseTopLevel c10State 0 40).pot = 60 ∧
    (raiseInline c10State 0 40).pot = 70 ∧
    (raiseTopLevel c10State 0 40).lastBetPlayerId = some "alice" ∧
    (raiseInline c10State 0 40).lastBetPlayerId = none ∧
    (raiseTopLevel c10State 0 40).players.map (fun p => p.hasActed) = [true, true] ∧
    (raiseInline c10State 0 40).players.map (fun p => p.hasActed) = [true, false] := by
  decide

/-- The reopen-action map of the inline raise leaves every player's chips
unchanged. -/
theorem map_chips_after_actedReset (pid : String) (l : List Player) :
    (l.map (fun p =>
      if !(p.id == pid) && p.isActive && !p.isAllIn then { p with hasActed := false }
      else p)).map (fun p => p.chips) = l.map (fun p => p.chips) := by
  induction l with
  | nil => rfl
  | cons a t ih =>
    simp only [List.map_cons, ih, List.cons.injEq, and_true]
    split <;> rfl

/-- The reopen-action map of the inline raise leaves every player's pending
bet unchanged. -/
theorem map_bets_after_actedReset (pid : String) (l : List Player) :
    (l.map (fun p =>
      if !(p.id == pid) && p.isActive && !p.isAllIn then { p with hasActed := false }
      else p)).map (fun p => p.currentBet) = l.map (fun p => p.currentBet) := by
  induction l with
  | nil => rfl
  | cons a t ih =>
    simp only [List.map_cons, ih, List.cons.injEq, and_true]
    split <;> rfl

/-- C10 amended: the two raise branches are not equivalent in general; when
the raiser has no pending bet (`player.currentBet = 0`) and the request is
at least 1, they accept the same requests and agree on every player's
chips, every player's pending bet, the pot, and the table bet - while still
disagreeing on `lastBetPlayerId` and on the other players' `hasActed` flags
whenever the raise is accepted (see the counterexample theorem). -/
theorem raise_branches_agree_when_raiser_unbet (s : GameState) (i : Nat) (amount : Int)
    (player : Player) (hp : s.players[i]? = some player)
    (hb : player.currentBet = 0) (ha : 1 ≤ amount) :
    ((raiseTopLevel s i amount).players.map (fun p => p.chips) =
      (raiseInline s i amount).players.map (fun p => p.chips)) ∧
    ((raiseTopLevel s i amount).players.map (fun p => p.currentBet) =
      (raiseInline s i amount).players.map (fun p => p.currentBet)) ∧
    (raiseTopLevel s i amount).pot = (raiseInline s i amount).pot ∧
    (raiseTopLevel s i amount).currentBet = (raiseInline s i amount).currentBet := by
  have hmin : min (amount - player.currentBet) player.chips = min amount player.chips := by
    rw [hb, sub_zero]
  have hacc : raiseValid player.chips s.currentBet amount =
      (decide (2 * s.currentBet ≤ min amount player.chips) ||
        (min amount player.chips == player.chips)) := by
    rcases le_or_lt player.chips amount with h | h
    · rw [min_eq_right h, Bool.eq_iff_iff]
      simp only [raiseValid, Bool.and_eq_true, Bool.or_eq_true, Bool.not_eq_true',
        beq_eq_false_iff_ne, ne_eq, decide_eq_true_eq, beq_iff_eq,
        eq_self_iff_true, or_true, iff_true]
      omega
    · rw [min_eq_left h.le, Bool.eq_iff_iff]
      simp only [raiseValid, Bool.and_eq_true, Bool.or_eq_true, Bool.not_eq_true',
        beq_eq_false_iff_ne, ne_eq, decide_eq_true_eq, beq_iff_eq,
        eq_self_iff_true, or_true, iff_true]
      omega
  unfold raiseTopLevel raiseInline raiseApply
  rw [hp]
  by_cases hv : raiseValid player.chips s.currentBet amount = true
  · have hv2 : (decide (2 * s.currentBet ≤ min amount player.chips) ||
        (min amount player.chips == player.chips)) = true := hacc ▸ hv
    simp only [hv, hv2, if_true]
    refine ⟨?_, ?_, ?_, ?_⟩
    · rw [List.map_set, List.map_set, map_chips_after_actedReset, List.map_set,
        List.set_set]
      congr 1
      split <;> split <;> simp [hmin]
    · rw [List.map_set, List.map_set, map_bets_after_actedReset, List.map_set,
        List.set_set]
      congr 1
      split <;> split <;> simp [hmin]
    · simp [hmin]
    · simp [hmin]
  · have hv2 : ¬((decide (2 * s.currentBet ≤ min amount player.chips) ||
        (min amount player.chips == player.chips)) = true) := by
      rw [← hacc]; exact hv
    simp only [hv, hv2, if_false]
    exact ⟨rfl, rfl, rfl, rfl⟩

/-- Witness: on a concrete unbet raiser the two branches produce the same
pot and chip distribution. -/
theorem raise_branches_agree_when_raiser_unbet_witness :
    (raiseTopLevel c5State 0 40).pot = (raiseInline c5State 0 40).pot ∧
    (raiseTopLevel c5State 0 40).players.map (fun p => p.chips) =
      (raiseInline c5State 0 40).players.map (fun p => p.chips) :=
  ⟨(raise_branches_agree_when_raiser_unbet c5State 0 40 (basePlayer "alice" 1000)
      rfl rfl (by decide)).2.2.1,
   (raise_branches_agree_when_raiser_unbet c5State 0 40 (basePlayer "alice" 1000)
      rfl rfl (by decide)).1⟩

/-! ### Money-accounting helper lemmas (towards C6) -/

theorem sumBy_cons (f : Player → Int) (p : Player) (l : List Player) :
    sumBy f (p :: l) = f p + sumBy f l := by
  simp [sumBy]

theorem sumBy_set (f : Player → Int) (l : List Player) (i : Nat) (p q : Player)
    (h : l[i]? = some p) : sumBy f (l.set i q) = sumBy f l - f p + f q := by
  induction l generalizing i with
  | nil => simp at h
  | cons a t ih =>
    cases i with
    | zero =>
      simp only [List.getElem?_cons_zero, Option.some.injEq] at h
      subst h
      simp only [List.set_cons_zero, sumBy_cons]
      ring
    | succ n =>
      simp only [List.getElem?_cons_succ] at h
      simp only [List.set_cons_succ, sumBy_cons, ih n h]
      ring

theorem sumBy_map_eq (f : Player → Int) (g : Player → Player) (l : List Player)
    (h : ∀ p, f (g p) = f p) : sumBy f (l.map g) = sumBy f l := by
  induction l with
  | nil => rfl
  | cons a t ih => simp [sumBy_cons, h, ih]

theorem sumBy_setTurnGo (f : Player → Int)
    (hf : ∀ (p : Player) (b : Bool), f { p with isTurn := b } = f p)
    (j : Nat) (l : List Player) (k : Nat) :
    sumBy f (setTurnGo j l k) = sumBy f l := by
  induction l generalizing k with
  | nil => rfl
  | cons a t ih => simp [setTurnGo, sumBy_cons, hf, ih]

theorem sumBy_chips_awardPotTo (ps : List Player) (wid : String) (pot : Int) :
    sumBy (fun p => p.chips) (awardPotTo ps wid pot) =
      sumBy (fun p => p.chips) ps +
        pot * ((ps.countP (fun p => p.id == wid) : Nat) : Int) := by
  induction ps with
  | nil => simp [awardPotTo, sumBy]
  | cons a t ih =>
    by_cases hid : (a.id == wid) = true
    · simp only [awardPotTo, List.map_cons, List.countP_cons, hid, if_true, if_pos,
        sumBy_cons] at *
      rw [ih]
      push_cast
      ring
    · simp only [awardPotTo, List.map_cons, List.countP_cons, hid, if_false, if_neg,
        sumBy_cons] at *
      rw [ih]
      push_cast
      ring

theorem money_nextPhaseSync (s : GameState) : money (nextPhaseSync s) = money s := by
  cases s with
  | mk players communityCards deck pot currentBet phase activePlayerId dealerId sb bb
      lb mp av =>
    cases phase <;> rfl

theorem money_advanceAfterAction (s : GameState) (i : Nat) :
    money (advanceAfterAction s i) = money s := by
  have hm : ∀ (j : Nat) (o : Option String),
      money { s with players := setTurn s.players j, activePlayerId := o } = money s := by
    intro j o
    simp only [money, setTurn]
    rw [sumBy_setTurnGo (fun p => p.chips) (fun p b => rfl)]
  simp only [advanceAfterAction]
  split
  · rw [money_nextPhaseSync]
    exact hm _ _
  · exact hm _ _

theorem money_handleNextTurn (s : GameState) : money (handleNextTurn s) = money s := by
  unfold handleNextTurn
  cases h : s.players.findIdx? (fun p => some p.id == s.activePlayerId) with
  | none => rfl
  | some i => exact money_advanceAfterAction s i

theorem money_set_pay (s : GameState) (i : Nat) (player q : Player) (d : Int)
    (h : s.players[i]? = some player) (hq : q.chips = player.chips - d) :
    money { s with players := s.players.set i q, pot := s.pot + d } = money s := by
  simp only [money]
  rw [sumBy_set _ _ _ _ _ h, hq]
  ring

theorem money_set_same_chips (s : GameState) (i : Nat) (player q : Player)
    (h : s.players[i]? = some player) (hq : q.chips = player.chips) :
    money { s with players := s.players.set i q } = money s := by
  simp only [money]
  rw [sumBy_set _ _ _ _ _ h, hq]
  ring

theorem money_raiseApply (s : GameState) (i : Nat) (player : Player) (amount : Int)
    (h : s.players[i]? = some player) :
    money (raiseApply s i player amount) = money s := by
  simp only [raiseApply, money]
  rw [sumBy_set _ _ _ _ _ h]
  split <;> ring

theorem money_handleAction (s : GameState) (a : String) (amt : Int) (pid : String) :
    money (handleAction s a amt pid) = money s := by
  unfold handleAction
  by_cases hg : (s.activePlayerId == some pid) = true
  · rw [hg]
    simp only [Bool.not_true]
    rw [if_neg Bool.false_ne_true]
    cases hfi : s.players.findIdx? (fun p => p.id == pid) with
    | none => rfl
    | some i =>
      simp only []
      cases hget : s.players[i]? with
      | none => rfl
      | some player =>
        simp only []
        by_cases h1 : (a == "fold") = true
        · rw [if_pos h1]
          exact money_set_same_chips s i player _ hget rfl
        · rw [if_neg h1]
          by_cases h2 : (a == "check") = true
          · rw [if_pos h2]
            by_cases h3 : decide (player.currentBet < s.currentBet) = true
            · rw [if_pos h3]
            · rw [if_neg h3]
              by_cases h4 : bettingComplete
                  { s with players :=
                      s.players.set i { player with hasActed := true } } = true
              · rw [if_pos h4, money_nextPhaseSync]
                exact money_set_same_chips s i player _ hget rfl
              · rw [if_neg h4, money_handleNextTurn]
                exact money_set_same_chips s i player _ hget rfl
          · rw [if_neg h2]
            by_cases h5 : (a == "call") = true
            · rw [if_pos h5]
              rw [money_advanceAfterAction]
              exact money_set_pay s i player _
                (min (s.currentBet - player.currentBet) player.chips) hget
                (by split <;> rfl)
            · rw [if_neg h5]
              by_cases h6 : (a == "raise") = true
              · rw [if_pos h6]
                by_cases h7 : raiseValid player.chips s.currentBet amt = true
                · rw [if_pos h7, money_advanceAfterAction]
                  exact money_raiseApply s i player amt hget
                · rw [if_neg h7]
              · rw [if_neg h6, money_advanceAfterAction]
  · have hg2 : (s.activePlayerId == some pid) = false := by
      revert hg
      cases s.activePlayerId == some pid <;> simp
    rw [hg2]
    rfl

theorem sumBy_chips_resetPlayerActions (ps : List Player) :
    sumBy (fun p => p.chips) (resetPlayerActions ps) = sumBy (fun p => p.chips) ps :=
  sumBy_map_eq _ _ _ (fun _ => rfl)

theorem money_resetBettingRound (s : GameState) :
    money (resetBettingRound s) = money s := by
  simp only [resetBettingRound, money, setTurn]
  rw [sumBy_setTurnGo (fun p => p.chips) (fun p b => rfl)]
  rw [sumBy_map_eq _ _ _ (fun p => by split <;> rfl)]

theorem money_streetDeal (s : GameState) (cards : List Card) (allIn : Bool) :
    money (streetDeal s cards allIn) = money s := by
  unfold streetDeal
  cases allIn with
  | true => rfl
  | false =>
    rw [if_neg Bool.false_ne_true, money_resetBettingRound]
    rfl

theorem sumBy_chips_dealToPlayers (ps : List Player) (d : List Card) :
    sumBy (fun p => p.chips) (dealToPlayers ps d) = sumBy (fun p => p.chips) ps := by
  induction ps generalizing d with
  | nil => rfl
  | cons p rest ih => simp [dealToPlayers, sumBy_cons, ih]

theorem sumBy_chips_postBlindsGo (dealer sb bb first : Nat) (ps : List Player) (k : Nat) :
    sumBy (fun p => p.chips) (postBlindsGo dealer sb bb first ps k).1 +
      (postBlindsGo dealer sb bb first ps k).2.1 = sumBy (fun p => p.chips) ps := by
  induction ps generalizing k with
  | nil => simp [postBlindsGo, sumBy]
  | cons p rest ih =>
    dsimp only [postBlindsGo]
    split
    · simp only [sumBy_cons]
      have h2 := ih (k + 1)
      omega
    · split
      · simp only [sumBy_cons]
        have h2 := ih (k + 1)
        omega
      · simp only [sumBy_cons]
        have h2 := ih (k + 1)
        omega

theorem money_startNewRoundDealt (s : GameState) (d : List Card) :
    money (startNewRoundDealt s d) = money s - s.pot := by
  unfold startNewRoundDealt startNewRoundSync
  dsimp only
  cases hn : (dealToPlayers (resetPlayerActions s.players) d).length with
  | zero =>
    simp only [money]
    rw [sumBy_chips_dealToPlayers, sumBy_chips_resetPlayerActions]
    ring
  | succ n =>
    simp only [money, zero_add]
    rw [sumBy_chips_postBlindsGo, sumBy_chips_dealToPlayers, sumBy_chips_resetPlayerActions]
    ring

theorem money_foldSettle_settles (s : GameState) (w : Player)
    (hf : s.players.filter (fun p => p.isActive) = [w])
    (hc : s.players.countP (fun p => p.id == w.id) = 1) :
    money (foldSettle s) = money s ∧ (foldSettle s).pot = 0 := by
  unfold foldSettle
  rw [hf]
  constructor
  · simp only [money]
    rw [sumBy_chips_awardPotTo, hc]
    push_cast
    ring
  · rfl

theorem money_foldSettle_continues (s : GameState)
    (hlen : (s.players.filter (fun p => p.isActive)).length ≠ 1) :
    money (foldSettle s) = money s := by
  unfold foldSettle
  cases hf : s.players.filter (fun p => p.isActive) with
  | nil => exact money_handleNextTurn s
  | cons w t =>
    cases t with
    | nil =>
      exfalso
      rw [hf] at hlen
      exact hlen rfl
    | cons w2 t2 => exact money_handleNextTurn s

theorem money_determineWinner (s : GameState) (r : Nat) (w : Player)
    (hr : (s.players.filter (fun p => p.isActive))[r]? = some w)
    (hc : s.players.countP (fun p => p.id == w.id) = 1) :
    money (determineWinner s r) = money s + s.pot ∧ (determineWinner s r).pot = s.pot := by
  unfold determineWinner
  simp only []
  rw [hr]
  constructor
  · simp only [money]
    rw [sumBy_chips_awardPotTo, hc]
    push_cast
    ring
  · rfl

theorem money_handleTimerExpiration_settles (s : GameState) (pid : String) (i : Nat)
    (player w : Player)
    (hfi : s.players.findIdx? (fun p => p.id == pid) = some i)
    (hgi : s.players[i]? = some player)
    (hf : (s.players.set i { player with isSittingOut := true, isActive := false }).filter
        (fun p => p.isActive) = [w])
    (hc : (s.players.set i { player with isSittingOut := true, isActive := false }).countP
        (fun p => p.id == w.id) = 1) :
    money (handleTimerExpiration s pid) = money s + s.pot ∧
    (handleTimerExpiration s pid).pot = s.pot := by
  unfold handleTimerExpiration
  rw [hfi]
  simp only []
  rw [hgi]
  simp only []
  rw [hf, if_pos (by simp)]
  constructor
  · simp only [money]
    rw [sumBy_chips_awardPotTo, hc, sumBy_set _ _ _ _ _ hgi]
    push_cast
    ring
  · rfl

theorem money_handleTimerExpiration_continues (s : GameState) (pid : String) (i : Nat)
    (player : Player)
    (hfi : s.players.findIdx? (fun p => p.id == pid) = some i)
    (hgi : s.players[i]? = some player)
    (hlen : ((s.players.set i { player with isSittingOut := true, isActive := false }).filter
        (fun p => p.isActive)).length ≠ 1) :
    money (handleTimerExpiration s pid) = money s := by
  unfold handleTimerExpiration
  rw [hfi]
  simp only []
  rw [hgi]
  simp only []
  have hms : money { s with
      players := s.players.set i { player with isSittingOut := true, isActive := false } } =
      money s := money_set_same_chips s i player _ hgi rfl
  by_cases hle : ((s.players.set i
      { player with isSittingOut := true, isActive := false }).filter
      (fun p => p.isActive)).length ≤ 1
  · rw [if_pos hle]
    cases hf : (s.players.set i
        { player with isSittingOut := true, isActive := false }).filter
        (fun p => p.isActive) with
    | nil =>
      rw [money_handleNextTurn]
      exact hms
    | cons w t =>
      cases t with
      | nil =>
        exfalso
        rw [hf] at hlen
        exact hlen rfl
      | cons w2 t2 =>
        exfalso
        rw [hf] at hle
        simp at hle
  · rw [if_neg hle, money_handleNextTurn]
    exact hms

/-! ### C6 -/

def c6State : GameState :=
  { baseState [basePlayer "alice" 100,
      { basePlayer "bob" 980 with currentBet := 20, hasActed := true }] with
    currentBet := 20, pot := 30, activePlayerId := some "alice" }

/-- C6 counterexample: a single accepted call moves 20 chips from alice into
both her `currentBet` and the pot at once, so the spec quantity
chips + pot + bets grows by 20 while chips + pot is conserved: the claimed
invariant fails on a non-settlement step. -/
theorem spec_quantity_not_invariant_under_call :
    specQuantity c6State = 1130 ∧
    specQuantity (handleAction c6State "call" 0 "alice") = 1150 ∧
    specQuantity (handleAction c6State "call" 0 "alice") ≠ specQuantity c6State ∧
    money (handleAction c6State "call" 0 "alice") = money c6State := by decide

/-- C6 amended: every wager is added to the pot the moment it is placed
(`player.currentBet` only records chips already counted in the pot), so the
conserved quantity is chips + pot. It is unchanged by every action of the
dispatcher, by street advances, and by non-settling timer expirations; blind
posting moves exactly the posted blinds from chips into the pot; starting a
hand clears the stale pot (the only step that lowers the total); the fold
settlement transfers the pot to the last contesting player and zeroes the
pot field; but the showdown settlement and the timeout settlement add the
pot to the winner's chips while leaving the pot field unchanged, so
chips + pot temporarily exceeds the table money by the pot until the next
hand's reset. -/
theorem chip_conservation_as_implemented :
    (∀ (s : GameState) (a : String) (amt : Int) (pid : String),
      money (handleAction s a amt pid) = money s) ∧
    (∀ (s : GameState) (cards : List Card) (allIn : Bool),
      money (streetDeal s cards allIn) = money s) ∧
    (∀ (dealer sb bb first : Nat) (ps : List Player) (k : Nat),
      sumBy (fun p => p.chips) (postBlindsGo dealer sb bb first ps k).1 +
        (postBlindsGo dealer sb bb first ps k).2.1 = sumBy (fun p => p.chips) ps) ∧
    (∀ (s : GameState) (d : List Card),
      money (startNewRoundDealt s d) = money s - s.pot) ∧
    (∀ (s : GameState) (w : Player),
      s.players.filter (fun p => p.isActive) = [w] →
      s.players.countP (fun p => p.id == w.id) = 1 →
      money (foldSettle s) = money s ∧ (foldSettle s).pot = 0) ∧
    (∀ (s : GameState),
      (s.players.filter (fun p => p.isActive)).length ≠ 1 →
      money (foldSettle s) = money s) ∧
    (∀ (s : GameState) (r : Nat) (w : Player),
      (s.players.filter (fun p => p.isActive))[r]? = some w →
      s.players.countP (fun p => p.id == w.id) = 1 →
      money (determineWinner s r) = money s + s.pot ∧ (determineWinner s r).pot = s.pot) ∧
    (∀ (s : GameState) (pid : String) (i : Nat) (player w : Player),
      s.players.findIdx? (fun p => p.id == pid) = some i →
      s.players[i]? = some player →
      (s.players.set i { player with isSittingOut := true, isActive := false }).filter
        (fun p => p.isActive) = [w] →
      (s.players.set i { player with isSittingOut := true, isActive := false }).countP
        (fun p => p.id == w.id) = 1 →
      money (handleTimerExpiration s pid) = money s + s.pot ∧
        (handleTimerExpiration s pid).pot = s.pot) ∧
    (∀ (s : GameState) (pid : String) (i : Nat) (player : Player),
      s.players.findIdx? (fun p => p.id == pid) = some i →
      s.players[i]? = some player →
      ((s.players.set i { player with isSittingOut := true, isActive := false }).filter
        (fun p => p.isActive)).length ≠ 1 →
      money (handleTimerExpiration s pid) = money s) :=
  ⟨money_handleAction, money_streetDeal, sumBy_chips_postBlindsGo,
    money_startNewRoundDealt, money_foldSettle_settles, money_foldSettle_continues,
    money_determineWinner, money_handleTimerExpiration_settles,
    money_handleTimerExpiration_continues⟩

/-- Witness: the showdown settlement at a concrete two-player state grows
chips + pot by exactly the pot and leaves the pot field set. -/
theorem chip_conservation_as_implemented_witness :
    money (determineWinner c1State 1) = money c1State + c1State.pot ∧
    (determineWinner c1State 1).pot = c1State.pot :=
  chip_conservation_as_implemented.2.2.2.2.2.2.1 c1State 1 c1PlayerB (by rfl) (by rfl)
